import Mathlib

/-!
Verification development for the bg-client-alerts service.

The service is embedded shallowly: JavaScript strings are lists of UTF-16
code units (the inputs of interest are ASCII), the Firestore collection is
an association list keyed by document id, the external collaborators
(ENS resolution provider, Firestore reads and writes, Telegram sends) are
oracles and failure flags threaded through the handlers, and a thrown
JavaScript exception is an Except error carrying the state at the throw
point, so that mutations performed before the throw persist.

The address layer reimplements the parts of ethers v6 the service calls:
getAddress with the EIP-55 checksum (hence a full keccak-256), and the
lowercasing used by normalizeAddress. The ICAP branch of getAddress is not
modelled; the service only ever deals in 0x hex addresses.
-/

set_option maxRecDepth 8000

deriving instance DecidableEq for Except

namespace BG

/-- JavaScript strings, as lists of UTF-16 code units. -/
abbrev JStr := List Nat

/-- Code units of a Lean string literal, for writing concrete inputs. -/
def str (s : String) : JStr := s.data.map Char.toNat

/-- Lowercase an ASCII letter code, as String.prototype.toLowerCase does on ASCII. -/
def lowerChar (n : Nat) : Nat := if 65 ≤ n ∧ n ≤ 90 then n + 32 else n

/-- Uppercase an ASCII letter code, as String.prototype.toUpperCase does on ASCII. -/
def upperChar (n : Nat) : Nat := if 97 ≤ n ∧ n ≤ 122 then n - 32 else n

/-- JavaScript toLowerCase, restricted to the ASCII range our inputs use. -/
def toLower (s : JStr) : JStr := s.map lowerChar

/-- Whitespace code units removed by String.prototype.trim (ASCII subset plus NBSP). -/
def isWS (n : Nat) : Bool := n == 32 || n == 9 || n == 10 || n == 11 || n == 12 || n == 13 || n == 160

/-- JavaScript String.prototype.trim. -/
def trim (s : JStr) : JStr := ((s.dropWhile isWS).reverse.dropWhile isWS).reverse

/-- Whether the code-unit sequence p occurs at the start of l. -/
def startsWithSeq : JStr → JStr → Bool
  | [], _ => true
  | _ :: _, [] => false
  | p :: ps, c :: cs => p == c && startsWithSeq ps cs

/-- Whether the code-unit sequence p occurs anywhere inside l, as a JS regex with no anchors. -/
def containsSeq (p : JStr) : JStr → Bool
  | [] => p.isEmpty
  | c :: cs => startsWithSeq p (c :: cs) || containsSeq p cs

namespace Keccak

def mask64 : Nat := 2 ^ 64 - 1

/-- Rotate a 64-bit lane left by n bits. -/
def rotl (x n : Nat) : Nat := ((x <<< n) ||| (x >>> (64 - n))) &&& mask64

/-- Round constants of Keccak-f[1600], written in decimal. -/
def RC : List Nat :=
  [1, 32898, 9223372036854808714,
   9223372039002292224, 32907, 2147483649,
   9223372039002292353, 9223372036854808585, 138,
   136, 2147516425, 2147483658,
   2147516555, 9223372036854775947, 9223372036854808713,
   9223372036854808579, 9223372036854808578, 9223372036854775936,
   32778, 9223372039002259466, 9223372039002292353,
   9223372036854808704, 2147483649, 9223372039002292232]

/-- Rho rotation offsets indexed by lane position x + 5 * y, generated by walking the
pi orbit from lane (1, 0) and assigning the triangular numbers modulo 64. -/
def rotOff : List Nat :=
  ((List.range 24).foldl
    (fun st t =>
      let x := st.1
      let y := st.2.1
      let arr := st.2.2
      (y, ((2 * x + 3 * y) % 5, arr.set (x + 5 * y) ((t + 1) * (t + 2) / 2 % 64))))
    (1, (0, List.replicate 25 0))).2.2

def theta (A : List Nat) : List Nat :=
  let C := (List.range 5).map (fun x =>
    (A.getD x 0) ^^^ (A.getD (x + 5) 0) ^^^ (A.getD (x + 10) 0) ^^^
    (A.getD (x + 15) 0) ^^^ (A.getD (x + 20) 0))
  let D := (List.range 5).map (fun x =>
    (C.getD ((x + 4) % 5) 0) ^^^ rotl (C.getD ((x + 1) % 5) 0) 1)
  (List.range 25).map (fun i => (A.getD i 0) ^^^ (D.getD (i % 5) 0))

def rhoPi (A : List Nat) : List Nat :=
  (List.range 25).foldl (fun B i =>
    let x := i % 5
    let y := i / 5
    B.set (y + 5 * ((2 * x + 3 * y) % 5)) (rotl (A.getD i 0) (rotOff.getD i 0)))
    (List.replicate 25 0)

def chi (B : List Nat) : List Nat :=
  (List.range 25).map (fun i =>
    let x := i % 5
    let y := i / 5
    (B.getD i 0) ^^^ (((B.getD ((x + 1) % 5 + 5 * y) 0) ^^^ mask64) &&& (B.getD ((x + 2) % 5 + 5 * y) 0)))

def keccakRound (A : List Nat) (rc : Nat) : List Nat :=
  let A := chi (rhoPi (theta A))
  A.set 0 ((A.getD 0 0) ^^^ rc)

def keccakF (A : List Nat) : List Nat :=
  (List.range 24).foldl (fun A r => keccakRound A (RC.getD r 0)) A

/-- Little-endian interpretation of up to eight bytes as a 64-bit lane. -/
def bytesToLane (bs : List Nat) : Nat := bs.foldr (fun b acc => acc * 256 + b) 0

/-- Absorb one 136-byte block into the state and permute. -/
def absorbBlock (A : List Nat) (block : List Nat) : List Nat :=
  let lanes := (List.range 17).map (fun i => bytesToLane ((block.drop (8 * i)).take 8))
  keccakF ((List.range 25).map (fun i => (A.getD i 0) ^^^ (lanes.getD i 0)))

/-- Multi-rate padding of Keccak (0x01 then zeros then 0x80) to a multiple of 136 bytes. -/
def pad (msg : List Nat) : List Nat :=
  let r := 136 - msg.length % 136
  if r = 1 then msg ++ [0x81]
  else msg ++ [0x01] ++ List.replicate (r - 2) 0 ++ [0x80]

/-- Split a byte list into 136-byte blocks, structurally on a fuel argument so that the
kernel can evaluate it. -/
def toBlocksAux : Nat → List Nat → List (List Nat)
  | 0, _ => []
  | _, [] => []
  | fuel + 1, a :: l => ((a :: l).take 136) :: toBlocksAux fuel ((a :: l).drop 136)

/-- Split a byte list into 136-byte blocks. -/
def toBlocks (l : List Nat) : List (List Nat) := toBlocksAux l.length l

/-- Keccak-256 of a byte sequence, as used by ethers for the EIP-55 checksum. -/
def keccak256 (msg : List Nat) : List Nat :=
  let A := (toBlocks (pad msg)).foldl absorbBlock (List.replicate 25 0)
  (List.range 32).map (fun i => ((A.getD (i / 8) 0) >>> (8 * (i % 8))) &&& 255)

end Keccak

/-- Hex digit code units, the character class of the ethers address regex. -/
def isHexCode (n : Nat) : Bool :=
  (48 ≤ n && n ≤ 57) || (97 ≤ n && n ≤ 102) || (65 ≤ n && n ≤ 70)

/-- The test address.match of the ethers getAddress regex, anchored 0x-optional 40 hex digits. -/
def matchesAddrHex (s : JStr) : Bool :=
  match s with
  | 48 :: 120 :: rest => rest.length == 40 && rest.all isHexCode
  | _ => s.length == 40 && s.all isHexCode

/-- The startsWith 0x test and conditional prepend in ethers getAddress. -/
def with0xMark (s : JStr) : JStr :=
  match s with
  | 48 :: 120 :: _ => s
  | _ => 48 :: 120 :: s

def isUpperHexLetter (n : Nat) : Bool := 65 ≤ n && n ≤ 70

def isLowerHexLetter (n : Nat) : Bool := 97 ≤ n && n ≤ 102

def upperThenLower : JStr → Bool
  | [] => false
  | c :: cs => (isUpperHexLetter c && cs.any isLowerHexLetter) || upperThenLower cs

def lowerThenUpper : JStr → Bool
  | [] => false
  | c :: cs => (isLowerHexLetter c && cs.any isUpperHexLetter) || lowerThenUpper cs

/-- The ethers mixed-case test, regex of an A-F before an a-f or an a-f before an A-F. -/
def hasMixedHexCase (s : JStr) : Bool := upperThenLower s || lowerThenUpper s

/-- The ethers getChecksumAddress: lowercase, hash the 40 hex character codes with
keccak-256, and uppercase every hex digit whose corresponding hash nibble is 8 or more. -/
def getChecksumAddress (address : JStr) : JStr :=
  let addr := toLower address
  let chars := addr.drop 2
  let hashed := Keccak.keccak256 chars
  let chars2 := (List.range 40).map (fun i =>
    let b := hashed.getD (i / 2) 0
    let nib := if i % 2 == 0 then b >>> 4 else b &&& 15
    let c := chars.getD i 0
    if 8 ≤ nib then upperChar c else c)
  48 :: 120 :: chars2

/-- The ethers v6 getAddress on the hex branch; none models a thrown invalid-address or
bad-checksum error. The ICAP branch is not modelled, the service never produces such input. -/
def getAddress (address : JStr) : Option JStr :=
  if matchesAddrHex address then
    let a := with0xMark address
    let result := getChecksumAddress a
    if hasMixedHexCase a && !(result == a) then none
    else some result
  else none

/-- normalizeAddress from src/utils.js: ethers getAddress then toLowerCase, null on a throw. -/
def normalizeAddress (s : JStr) : Option JStr :=
  match getAddress s with
  | none => none
  | some a => some (toLower a)

/-- isENS from src/utils.js: a string containing a dot. -/
def isENS (s : JStr) : Bool := s.contains 46

/-- isValidIdentifier from src/utils.js. The falsy test rejects the empty string. -/
def isValidIdentifier (s : JStr) : Bool :=
  if s.isEmpty then false
  else if isENS s then decide (s.length > 3)
  else (normalizeAddress s).isSome

/-- The two identifier classes named by the spec. -/
inductive IdClass
  | NameStyle
  | AddressStyle
deriving DecidableEq, Repr

/-- The classify operation of the spec; in the source it is the isENS test. -/
def classify (s : JStr) : IdClass :=
  if isENS s then .NameStyle else .AddressStyle

/-- The composite normalizeAddress(normalizeAddress(x)) of the idempotence property;
in JavaScript the inner null flows into getAddress, which throws, giving null again. -/
def normalizeTwice (s : JStr) : Option JStr :=
  match normalizeAddress s with
  | none => none
  | some y => normalizeAddress y

/-! Registration store. The Firestore collection bgClientAlertAddresses is an association
list of document id and document data, in creation order. The createdAt server timestamp
is not modelled, no claim mentions it. -/

/-- Document data of the collection, the fields written by saveAddress. -/
structure Reg where
  ens : Option JStr
  address : JStr
  chatId : Int
deriving DecidableEq, Repr

/-- The Firestore collection, association list of document id and data. -/
abbrev Db := List (JStr × Reg)

/-- Keyed upsert on an association list: replace the entry with that key, or append it. -/
def alistSet {κ α : Type} [BEq κ] (l : List (κ × α)) (k : κ) (v : α) : List (κ × α) :=
  if l.any (fun p => p.1 == k) then l.map (fun p => if p.1 == k then (k, v) else p)
  else l ++ [(k, v)]

/-- Keyed lookup on an association list. -/
def alistGet {κ α : Type} [BEq κ] (l : List (κ × α)) (k : κ) : Option α :=
  (l.find? (fun p => p.1 == k)).map (fun p => p.2)

/-- Keyed removal on an association list. -/
def alistDel {κ α : Type} [BEq κ] (l : List (κ × α)) (k : κ) : List (κ × α) :=
  l.filter (fun p => !(p.1 == k))

/-- Keyed membership on an association list. -/
def alistHas {κ α : Type} [BEq κ] (l : List (κ × α)) (k : κ) : Bool :=
  l.any (fun p => p.1 == k)

/-- Firestore doc(id).set: replace the document with that id, or create it. -/
def dbSet (db : Db) (docId : JStr) (r : Reg) : Db := alistSet db docId r

/-- Firestore doc(id).get, as the data of the document when it exists. -/
def dbGet (db : Db) (docId : JStr) : Option Reg := alistGet db docId

/-- Firestore doc(id).delete. -/
def dbDelete (db : Db) (docId : JStr) : Db := alistDel db docId

/-- Oracle for the external ENS resolution collaborator behind provider.resolveName:
an error is a thrown network failure, ok none is a name with no resolution, and
ok some a is a successful resolution to a, in whatever case the provider reports. -/
abbrev EnsOracle := JStr → Except Unit (Option JStr)

/-- resolveENS from src/utils.js. The catch converts a thrown provider error into null,
and a successful resolution is lowercased. -/
def resolveENS (o : EnsOracle) (ens : JStr) : Option JStr :=
  match o ens with
  | .error _ => none
  | .ok none => none
  | .ok (some a) => some (toLower a)

/-- getChatIdByIdentifier from src/utils.js. The getThrows flag models the Firestore
get call throwing because the persistence collaborator is unreachable; that error is
not caught here and propagates to the caller. -/
def getChatIdByIdentifier (o : EnsOracle) (getThrows : Bool) (db : Db) (identifier : JStr) :
    Except Unit (Option Int) :=
  let addr? := if isENS identifier then resolveENS o identifier else normalizeAddress identifier
  match addr? with
  | none => .ok none
  | some a =>
    if getThrows then .error ()
    else
      match dbGet db a with
      | none => .ok none
      | some r => .ok (some r.chatId)

/-! Alert ingestion endpoint, src/unnamed/part_002. -/

/-- The JSON responses the /api/alert route can produce. -/
inductive ApiResponse
  | missingFields
  | invalidIdentifier
  | messageTooLong
  | alertTypeTooLong
  | rateLimited
  | notFound
  | success
  | internalError
deriving DecidableEq, Repr

/-- HTTP status code of each response. -/
def statusOf : ApiResponse → Nat
  | .missingFields => 400
  | .invalidIdentifier => 400
  | .messageTooLong => 400
  | .alertTypeTooLong => 400
  | .rateLimited => 429
  | .notFound => 404
  | .success => 200
  | .internalError => 500

/-- Body of a POST /api/alert request; none models an absent field. -/
structure AlertRequest where
  ens : Option JStr
  message : Option JStr
  alertType : Option JStr
deriving DecidableEq, Repr

/-- JavaScript truthiness of an optional string field: present and non-empty. -/
def truthy : Option JStr → Bool
  | none => false
  | some s => !s.isEmpty

/-- The /api/alert handler body, after the rate limiter middleware has let the request
through. The sendThrows flag models a thrown Telegram send; either thrown error is
caught by the try and answered with the 500 response. The not-found branch also fires
on a chatId of 0 because the source tests the JavaScript falsiness of chatId. -/
def alertHandler (o : EnsOracle) (getThrows sendThrows : Bool) (db : Db) (req : AlertRequest) :
    ApiResponse :=
  if !(truthy req.ens && truthy req.message && truthy req.alertType) then .missingFields
  else
    let ens := req.ens.getD []
    let message := req.message.getD []
    let alertType := req.alertType.getD []
    if !isValidIdentifier ens then .invalidIdentifier
    else if message.length > 1000 then .messageTooLong
    else if alertType.length > 100 then .alertTypeTooLong
    else
      match getChatIdByIdentifier o getThrows db ens with
      | .error _ => .internalError
      | .ok none => .notFound
      | .ok (some c) =>
        if c == 0 then .notFound
        else if sendThrows then .internalError
        else .success

/-- Per-key request counts of the express-rate-limit store within the current window. -/
abbrev LimState := List (JStr × Nat)

def limGet (st : LimState) (k : JStr) : Nat :=
  match alistGet st k with
  | none => 0
  | some n => n

def limSet (st : LimState) (k : JStr) (n : Nat) : LimState := alistSet st k n

/-- The whole POST /api/alert route. The alertLimiter middleware runs first: it keys on
req.body.ens when truthy, else on the client ip, increments that counter for every
request, and answers 429 when the incremented count exceeds 100; only otherwise does the
handler body run. -/
def alertRoute (o : EnsOracle) (getThrows sendThrows : Bool) (db : Db) (st : LimState)
    (ip : JStr) (req : AlertRequest) : ApiResponse × LimState :=
  let key := if truthy req.ens then req.ens.getD [] else ip
  let c := limGet st key + 1
  let st2 := limSet st key c
  if c > 100 then (.rateLimited, st2)
  else (alertHandler o getThrows sendThrows db req, st2)

/-! Conversation state machine, src/unnamed/part_001. -/

/-- Tags of the sendMessage call sites of the bot, one per distinct message. -/
inductive Reply
  | welcomeBack
  | askIdentifier
  | startError
  | showIdentifier
  | showNotRegistered
  | showError
  | changeNotRegistered
  | changeAsk
  | changeError
  | stopNotRegistered
  | stopConfirmAsk
  | stopError
  | helpText
  | helpError
  | unknownCommand
  | invalidInput
  | resolving
  | resolveFailed
  | invalidAddress
  | registeredENS
  | registeredAddress
  | registrationApology
  | changeSessionExpired
  | changedENS
  | changedAddress
  | changeApology
  | deleteSessionExpired
  | deletedConfirmed
  | deleteCancelled
  | deleteApology
deriving DecidableEq, Repr

/-- Value stored in pendingChanges. -/
structure ChangeInfo where
  oldAddress : JStr
  oldEns : Option JStr
deriving DecidableEq, Repr

/-- Value stored in pendingDeletions. -/
structure DeletionInfo where
  address : JStr
  ens : Option JStr
deriving DecidableEq, Repr

/-- State of the bot process: the three pending maps, the store, and the log of
sendMessage attempts in order. -/
structure BotState where
  pendingRegistrations : List Int
  pendingChanges : List (Int × ChangeInfo)
  pendingDeletions : List (Int × DeletionInfo)
  db : Db
  sent : List (Int × Reply)
deriving DecidableEq, Repr

/-- Map.get on a chat-keyed map. -/
def mget {α : Type} (l : List (Int × α)) (k : Int) : Option α := alistGet l k

/-- Map.set on a chat-keyed map. -/
def mset {α : Type} (l : List (Int × α)) (k : Int) (v : α) : List (Int × α) := alistSet l k v

/-- Map.delete on a chat-keyed map. -/
def mdel {α : Type} (l : List (Int × α)) (k : Int) : List (Int × α) := alistDel l k

/-- Map.has on a chat-keyed map. -/
def mhas {α : Type} (l : List (Int × α)) (k : Int) : Bool := alistHas l k

/-- Map.set on pendingRegistrations, whose values are the constant true. -/
def regInsert (l : List Int) (k : Int) : List Int :=
  if l.contains k then l else l ++ [k]

/-- Map.delete on pendingRegistrations. -/
def regDelete (l : List Int) (k : Int) : List Int :=
  l.filter (fun c => !(c == k))

/-- External collaborator behavior for one processed message: the resolution oracle and
the failure flags of the Firestore query, the two Firestore writes, and the Telegram send. -/
structure Eff where
  resolve : EnsOracle
  findThrows : Bool
  saveThrows : Bool
  deleteThrows : Bool
  sendThrows : Bool

/-- bot.sendMessage: the attempt is recorded in the log, then the call fails when the
messaging collaborator is failing. An error carries the state at the throw point. -/
def sendMessage (e : Eff) (s : BotState) (chat : Int) (m : Reply) : Except BotState BotState :=
  let s2 := { s with sent := s.sent ++ [(chat, m)] }
  if e.sendThrows then .error s2 else .ok s2

/-- sendMessage at a call site whose rejection nobody awaits or catches. -/
def sendIgnore (e : Eff) (s : BotState) (chat : Int) (m : Reply) : BotState :=
  match sendMessage e s chat m with
  | .ok s2 => s2
  | .error s2 => s2

/-- The ens or null expression of saveAddress: an absent or empty alias becomes null. -/
def ensOrNull (ens : Option JStr) : Option JStr :=
  match ens with
  | none => none
  | some a => if a.isEmpty then none else some a

/-- The store effect of saveAddress from src/utils.js. -/
def saveAddressDb (db : Db) (ens : Option JStr) (address : JStr) (chat : Int) : Db :=
  dbSet db address ⟨ensOrNull ens, address, chat⟩

/-- saveAddress from src/utils.js as a state update. -/
def saveAddress (e : Eff) (s : BotState) (ens : Option JStr) (address : JStr) (chat : Int) :
    Except BotState BotState :=
  if e.saveThrows then .error s
  else .ok { s with db := saveAddressDb s.db ens address chat }

/-- deleteAddress from src/utils.js as a state update. -/
def deleteAddress (e : Eff) (s : BotState) (address : JStr) : Except BotState BotState :=
  if e.deleteThrows then .error s
  else .ok { s with db := dbDelete s.db address }

/-- Result row of getAddressByChatId from src/utils.js. -/
structure AddrInfo where
  ens : Option JStr
  address : JStr
  docId : JStr
deriving DecidableEq, Repr

/-- getAddressByChatId from src/utils.js: first document whose chatId field matches. -/
def getAddressByChatId (e : Eff) (db : Db) (chat : Int) : Except Unit (Option AddrInfo) :=
  if e.findThrows then .error ()
  else
    match db.find? (fun p => p.2.chatId == chat) with
    | none => .ok none
    | some p => .ok (some ⟨p.2.ens, p.2.address, p.1⟩)

/-- Body of handleIdentifierInput, inside the try. -/
def handleIdentifierInputBody (e : Eff) (s : BotState) (chat : Int) (text : Option JStr) :
    Except BotState BotState :=
  match text with
  | none => sendMessage e s chat .invalidInput
  | some t =>
    if t.isEmpty then sendMessage e s chat .invalidInput
    else
      let trimmed := trim t
      if isENS trimmed then
        match sendMessage e s chat .resolving with
        | .error s1 => .error s1
        | .ok s1 =>
          match resolveENS e.resolve trimmed with
          | none => sendMessage e s1 chat .resolveFailed
          | some address =>
            match saveAddress e s1 (some trimmed) address chat with
            | .error s2 => .error s2
            | .ok s2 =>
              let s3 := { s2 with pendingRegistrations := regDelete s2.pendingRegistrations chat }
              sendMessage e s3 chat .registeredENS
      else
        match normalizeAddress trimmed with
        | none => sendMessage e s chat .invalidAddress
        | some normalized =>
          match saveAddress e s none normalized chat with
          | .error s2 => .error s2
          | .ok s2 =>
            let s3 := { s2 with pendingRegistrations := regDelete s2.pendingRegistrations chat }
            sendMessage e s3 chat .registeredAddress

/-- handleIdentifierInput from src/unnamed/part_001, with its catch. -/
def handleIdentifierInput (e : Eff) (s : BotState) (chat : Int) (text : Option JStr) : BotState :=
  match handleIdentifierInputBody e s chat text with
  | .ok s2 => s2
  | .error sMid =>
    sendIgnore e
      { sMid with pendingRegistrations := regDelete sMid.pendingRegistrations chat }
      chat .registrationApology

/-- Body of handleAddressChange, inside the try. -/
def handleAddressChangeBody (e : Eff) (s : BotState) (chat : Int) (text : Option JStr) :
    Except BotState BotState :=
  match text with
  | none => sendMessage e s chat .invalidInput
  | some t =>
    if t.isEmpty then sendMessage e s chat .invalidInput
    else
      let trimmed := trim t
      match mget s.pendingChanges chat with
      | none => sendMessage e s chat .changeSessionExpired
      | some oldInfo =>
        if isENS trimmed then
          match sendMessage e s chat .resolving with
          | .error s1 => .error s1
          | .ok s1 =>
            match resolveENS e.resolve trimmed with
            | none => sendMessage e s1 chat .resolveFailed
            | some address =>
              match deleteAddress e s1 oldInfo.oldAddress with
              | .error s2 => .error s2
              | .ok s2 =>
                match saveAddress e s2 (some trimmed) address chat with
                | .error s3 => .error s3
                | .ok s3 =>
                  let s4 := { s3 with pendingChanges := mdel s3.pendingChanges chat }
                  sendMessage e s4 chat .changedENS
        else
          match normalizeAddress trimmed with
          | none => sendMessage e s chat .invalidAddress
          | some normalized =>
            match deleteAddress e s oldInfo.oldAddress with
            | .error s2 => .error s2
            | .ok s2 =>
              match saveAddress e s2 none normalized chat with
              | .error s3 => .error s3
              | .ok s3 =>
                let s4 := { s3 with pendingChanges := mdel s3.pendingChanges chat }
                sendMessage e s4 chat .changedAddress

/-- handleAddressChange from src/unnamed/part_001, with its catch. -/
def handleAddressChange (e : Eff) (s : BotState) (chat : Int) (text : Option JStr) : BotState :=
  match handleAddressChangeBody e s chat text with
  | .ok s2 => s2
  | .error sMid =>
    sendIgnore e { sMid with pendingChanges := mdel sMid.pendingChanges chat }
      chat .changeApology

/-- Body of handleDeletionConfirmation, inside the try. A missing text throws, because
the source calls response.trim on it unconditionally. -/
def handleDeletionConfirmationBody (e : Eff) (s : BotState) (chat : Int)
    (text : Option JStr) : Except BotState BotState :=
  match mget s.pendingDeletions chat with
  | none => sendMessage e s chat .deleteSessionExpired
  | some info =>
    match text with
    | none => .error s
    | some t =>
      let normalized := toLower (trim t)
      if normalized == str ("y") || normalized == str ("yes") then
        match deleteAddress e s info.address with
        | .error s1 => .error s1
        | .ok s1 =>
          let s2 := { s1 with pendingDeletions := mdel s1.pendingDeletions chat }
          sendMessage e s2 chat .deletedConfirmed
      else
        let s2 := { s with pendingDeletions := mdel s.pendingDeletions chat }
        sendMessage e s2 chat .deleteCancelled

/-- handleDeletionConfirmation from src/unnamed/part_001, with its catch. -/
def handleDeletionConfirmation (e : Eff) (s : BotState) (chat : Int) (text : Option JStr) :
    BotState :=
  match handleDeletionConfirmationBody e s chat text with
  | .ok s2 => s2
  | .error sMid =>
    sendIgnore e { sMid with pendingDeletions := mdel sMid.pendingDeletions chat }
      chat .deleteApology

/-- The onText handler of the /start command. -/
def startHandler (e : Eff) (s : BotState) (chat : Int) : BotState :=
  let body : Except BotState BotState :=
    match getAddressByChatId e s.db chat with
    | .error _ => .error s
    | .ok (some _) => sendMessage e s chat .welcomeBack
    | .ok none =>
      sendMessage e
        { s with pendingRegistrations := regInsert s.pendingRegistrations chat }
        chat .askIdentifier
  match body with
  | .ok s2 => s2
  | .error sMid => sendIgnore e sMid chat .startError

/-- The onText handler of the /show command. -/
def showHandler (e : Eff) (s : BotState) (chat : Int) : BotState :=
  let body : Except BotState BotState :=
    match getAddressByChatId e s.db chat with
    | .error _ => .error s
    | .ok (some _) => sendMessage e s chat .showIdentifier
    | .ok none => sendMessage e s chat .showNotRegistered
  match body with
  | .ok s2 => s2
  | .error sMid => sendIgnore e sMid chat .showError

/-- The onText handler of the /change command. -/
def changeHandler (e : Eff) (s : BotState) (chat : Int) : BotState :=
  let body : Except BotState BotState :=
    match getAddressByChatId e s.db chat with
    | .error _ => .error s
    | .ok none => sendMessage e s chat .changeNotRegistered
    | .ok (some info) =>
      sendMessage e
        { s with pendingChanges := mset s.pendingChanges chat ⟨info.docId, info.ens⟩ }
        chat .changeAsk
  match body with
  | .ok s2 => s2
  | .error sMid => sendIgnore e sMid chat .changeError

/-- The onText handler of the /stop command. -/
def stopHandler (e : Eff) (s : BotState) (chat : Int) : BotState :=
  let body : Except BotState BotState :=
    match getAddressByChatId e s.db chat with
    | .error _ => .error s
    | .ok none => sendMessage e s chat .stopNotRegistered
    | .ok (some info) =>
      sendMessage e
        { s with pendingDeletions := mset s.pendingDeletions chat ⟨info.docId, info.ens⟩ }
        chat .stopConfirmAsk
  match body with
  | .ok s2 => s2
  | .error sMid => sendIgnore e sMid chat .stopError

/-- The onText handler of the /help command. -/
def helpHandler (e : Eff) (s : BotState) (chat : Int) : BotState :=
  match sendMessage e s chat .helpText with
  | .ok s2 => s2
  | .error sMid => sendIgnore e sMid chat .helpError

/-- Whether the text starts with one of the five known command words. -/
def startsWithKnownCommand (t : JStr) : Bool :=
  startsWithSeq (str ("/start")) t || startsWithSeq (str ("/show")) t ||
  startsWithSeq (str ("/change")) t || startsWithSeq (str ("/stop")) t ||
  startsWithSeq (str ("/help")) t

/-- The generic message listener: commands are ignored apart from the unknown-command
reply, a missing text falls through, and otherwise the pending maps are consulted in the
order deletions, changes, registrations. The listener has no try, so a rejection of the
unknown-command send is simply unawaited. -/
def messageHandler (e : Eff) (s : BotState) (chat : Int) (text : Option JStr) : BotState :=
  let isCmd := match text with
    | none => false
    | some t => startsWithSeq (str ("/")) t
  if isCmd then
    match text with
    | none => s
    | some t => if startsWithKnownCommand t then s else sendIgnore e s chat .unknownCommand
  else
    if mhas s.pendingDeletions chat then handleDeletionConfirmation e s chat text
    else if mhas s.pendingChanges chat then handleAddressChange e s chat text
    else if s.pendingRegistrations.contains chat then handleIdentifierInput e s chat text
    else s

/-- Whether an onText regex with the given command word fires on the message. -/
def matchesCmd (cmd : JStr) (text : Option JStr) : Bool :=
  match text with
  | none => false
  | some t => containsSeq cmd t

/-- One inbound Telegram message processed by the bot. The library emits the message
event first and then runs each matching onText callback in registration order; the
handlers are modelled as running to completion in that order. -/
def processMessage (e : Eff) (s : BotState) (chat : Int) (text : Option JStr) : BotState :=
  let s := messageHandler e s chat text
  let s := if matchesCmd (str ("/start")) text then startHandler e s chat else s
  let s := if matchesCmd (str ("/show")) text then showHandler e s chat else s
  let s := if matchesCmd (str ("/change")) text then changeHandler e s chat else s
  let s := if matchesCmd (str ("/stop")) text then stopHandler e s chat else s
  let s := if matchesCmd (str ("/help")) text then helpHandler e s chat else s
  s

/-! Concrete inputs used by the counterexamples and witnesses. The address is the
EIP-55 reference address; addrChk is its correct checksum form and addrBad is a
mixed-case variant whose casing does not agree with the checksum. -/

/-- Resolution oracle whose every lookup resolves to nothing. -/
def okOracle : EnsOracle := fun _ => Except.ok none

/-- Resolution oracle whose every lookup throws, an unreachable network. -/
def errOracle : EnsOracle := fun _ => Except.error ()

/-- Collaborator behavior with a resolution oracle that finds nothing and no failures. -/
def eff0 : Eff := ⟨okOracle, false, false, false, false⟩

/-- Collaborator behavior whose Firestore writes of saveAddress throw. -/
def effSaveFail : Eff := ⟨okOracle, false, true, false, false⟩

/-- Canonical lowercase form of the EIP-55 reference address. -/
def addrA : JStr := str ("0x5aaeb6053f3e94c9b9a09f33669435e7ef1beaed")

/-- Correct EIP-55 checksum form of addrA. -/
def addrChk : JStr := str ("0x5aAeb6053F3E94C9b9A09f33669435E7Ef1BeAed")

/-- Case variant of addrA whose mixed casing disagrees with the checksum. -/
def addrBad : JStr := str ("0x5Aaeb6053f3e94c9b9a09f33669435e7ef1beaed")

/-- A name-style identifier. -/
def ensName : JStr := str ("vitalik.eth")

/-- Bot state with one registration for chat 1 and no pending flow. -/
def s0 : BotState := ⟨[], [], [], [(addrA, ⟨none, addrA, 1⟩)], []⟩

/-- Between two states, every pending entry of the first is still pending in the
second: nothing was abandoned. -/
def PendingMono (s1 s2 : BotState) : Prop :=
  (∀ k, mhas s1.pendingDeletions k = true → mhas s2.pendingDeletions k = true) ∧
  (∀ k, mhas s1.pendingChanges k = true → mhas s2.pendingChanges k = true) ∧
  (∀ k, s1.pendingRegistrations.contains k = true →
    s2.pendingRegistrations.contains k = true)

/-! Association list lemmas. -/

section AList

variable {κ α : Type} [BEq κ] [LawfulBEq κ]

theorem find?_map_replace (l : List (κ × α)) (k : κ) (v : α) :
    (l.map (fun p => if p.1 == k then (k, v) else p)).find? (fun p => p.1 == k) =
      if l.any (fun p => p.1 == k) then some (k, v) else none := by
  induction l with
  | nil => simp
  | cons p l ih =>
    by_cases h : (p.1 == k) = true
    · simp [h, List.find?_cons_of_pos]
    · simp only [Bool.not_eq_true] at h
      simp only [List.map_cons, h, if_false, List.any_cons, Bool.false_or]
      rw [List.find?_cons_of_neg _ (by simp [h])]
      exact ih

theorem find?_map_replace_ne (l : List (κ × α)) (k k2 : κ) (v : α) (h : ¬ k2 = k) :
    (l.map (fun p => if p.1 == k then (k, v) else p)).find? (fun p => p.1 == k2) =
      l.find? (fun p => p.1 == k2) := by
  induction l with
  | nil => simp
  | cons p l ih =>
    by_cases hp : (p.1 == k) = true
    · have hpk : p.1 = k := by simpa using hp
      have h1 : ((k : κ) == k2) = false := by
        simp only [beq_eq_false_iff_ne, ne_eq]
        intro hc
        exact h hc.symm
      have h2 : (p.1 == k2) = false := by rw [hpk]; exact h1
      simp only [List.map_cons, hp, if_true]
      rw [List.find?_cons_of_neg _ (by simp [h1]), List.find?_cons_of_neg _ (by simp [h2])]
      exact ih
    · simp only [Bool.not_eq_true] at hp
      simp only [List.map_cons, hp, Bool.false_eq_true, if_false]
      by_cases hq : (p.1 == k2) = true
      · simp [List.find?_cons, hq]
      · simp only [Bool.not_eq_true] at hq
        rw [List.find?_cons_of_neg _ (by simp [hq]), List.find?_cons_of_neg _ (by simp [hq])]
        exact ih

theorem find?_filter_key_ne (l : List (κ × α)) (k k2 : κ) (h : ¬ k2 = k) :
    (l.filter (fun p => !(p.1 == k))).find? (fun p => p.1 == k2) =
      l.find? (fun p => p.1 == k2) := by
  induction l with
  | nil => simp
  | cons p l ih =>
    by_cases hp : (p.1 == k) = true
    · have hpk : p.1 = k := by simpa using hp
      have h2 : (p.1 == k2) = false := by
        simp only [beq_eq_false_iff_ne, ne_eq, hpk]
        intro hc
        exact h hc.symm
      simp only [List.filter_cons, hp, Bool.not_true, Bool.false_eq_true, if_false]
      rw [List.find?_cons_of_neg _ (by simp [h2])]
      exact ih
    · simp only [Bool.not_eq_true] at hp
      simp only [List.filter_cons, hp, Bool.not_false, if_true]
      by_cases hq : (p.1 == k2) = true
      · simp [List.find?_cons, hq]
      · simp only [Bool.not_eq_true] at hq
        rw [List.find?_cons_of_neg _ (by simp [hq]), List.find?_cons_of_neg _ (by simp [hq])]
        exact ih

theorem alistGet_set_self (l : List (κ × α)) (k : κ) (v : α) :
    alistGet (alistSet l k v) k = some v := by
  unfold alistSet alistGet
  by_cases ha : (l.any fun p => p.1 == k) = true
  · simp only [ha, if_true]
    rw [find?_map_replace]
    simp [ha]
  · simp only [Bool.not_eq_true] at ha
    simp only [ha, Bool.false_eq_true, if_false]
    rw [List.find?_append]
    have hnone : l.find? (fun p => p.1 == k) = none := by
      rw [List.find?_eq_none]
      exact List.any_eq_false.mp ha
    simp [hnone]

theorem alistGet_set_ne (l : List (κ × α)) (k k2 : κ) (v : α) (h : ¬ k2 = k) :
    alistGet (alistSet l k v) k2 = alistGet l k2 := by
  unfold alistSet alistGet
  by_cases ha : (l.any fun p => p.1 == k) = true
  · simp only [ha, if_true]
    rw [find?_map_replace_ne _ _ _ _ h]
  · simp only [Bool.not_eq_true] at ha
    simp only [ha, Bool.false_eq_true, if_false]
    rw [List.find?_append]
    have hone : List.find? (fun p => p.1 == k2) [(k, v)] = none := by
      have h1 : ((k : κ) == k2) = false := by
        simp only [beq_eq_false_iff_ne, ne_eq]
        intro hc
        exact h hc.symm
      rw [List.find?_cons_of_neg _ (by simp [h1])]
      rfl
    simp [hone]

theorem alistGet_del_self (l : List (κ × α)) (k : κ) :
    alistGet (alistDel l k) k = none := by
  unfold alistDel alistGet
  have hnone : (l.filter (fun p => !(p.1 == k))).find? (fun p => p.1 == k) = none := by
    rw [List.find?_eq_none]
    intro p hp
    have := List.of_mem_filter hp
    simpa using this
  simp [hnone]

theorem alistGet_del_ne (l : List (κ × α)) (k k2 : κ) (h : ¬ k2 = k) :
    alistGet (alistDel l k) k2 = alistGet l k2 := by
  unfold alistDel alistGet
  rw [find?_filter_key_ne _ _ _ h]

theorem alistHas_eq_isSome (l : List (κ × α)) (k : κ) :
    alistHas l k = (alistGet l k).isSome := by
  unfold alistHas alistGet
  induction l with
  | nil => simp
  | cons p l ih =>
    by_cases hp : (p.1 == k) = true
    · simp [hp, List.find?_cons_of_pos]
    · simp only [Bool.not_eq_true] at hp
      rw [List.any_cons, List.find?_cons_of_neg _ (by simp [hp]), hp, Bool.false_or]
      exact ih

theorem alistHas_set_self (l : List (κ × α)) (k : κ) (v : α) :
    alistHas (alistSet l k v) k = true := by
  rw [alistHas_eq_isSome, alistGet_set_self]
  rfl

theorem alistHas_set_ne (l : List (κ × α)) (k k2 : κ) (v : α) (h : ¬ k2 = k) :
    alistHas (alistSet l k v) k2 = alistHas l k2 := by
  rw [alistHas_eq_isSome, alistHas_eq_isSome, alistGet_set_ne _ _ _ _ h]

theorem alistHas_set_mono (l : List (κ × α)) (k k2 : κ) (v : α)
    (h : alistHas l k2 = true) : alistHas (alistSet l k v) k2 = true := by
  by_cases hk : k2 = k
  · subst hk
    exact alistHas_set_self l k2 v
  · rw [alistHas_set_ne _ _ _ _ hk]
    exact h

theorem alistHas_del_self (l : List (κ × α)) (k : κ) :
    alistHas (alistDel l k) k = false := by
  rw [alistHas_eq_isSome, alistGet_del_self]
  rfl

end AList

theorem snd_ite_pair {α β : Type} (P : Prop) [Decidable P] (x y : α) (s : β) :
    (if P then (x, s) else (y, s)).2 = s := by
  split_ifs <;> rfl

/-! Character and hex-string lemmas. -/

theorem lowerChar_lowerChar (c : Nat) : lowerChar (lowerChar c) = lowerChar c := by
  unfold lowerChar
  split_ifs <;> omega

theorem lowerChar_upperChar (c : Nat) : lowerChar (upperChar c) = lowerChar c := by
  unfold lowerChar upperChar
  split_ifs <;> omega

theorem toLower_toLower (s : JStr) : toLower (toLower s) = toLower s := by
  simp only [toLower, List.map_map]
  exact List.map_congr_left (fun a _ => lowerChar_lowerChar a)

theorem isHexCode_lowerChar (c : Nat) (h : isHexCode c = true) :
    isHexCode (lowerChar c) = true := by
  unfold isHexCode at h
  unfold isHexCode lowerChar
  simp only [Bool.or_eq_true, Bool.and_eq_true, decide_eq_true_eq] at h ⊢
  split_ifs <;> omega

theorem isHexCode_upperChar (c : Nat) (h : isHexCode c = true) :
    isHexCode (upperChar c) = true := by
  unfold isHexCode at h
  unfold isHexCode upperChar
  simp only [Bool.or_eq_true, Bool.and_eq_true, decide_eq_true_eq] at h ⊢
  split_ifs <;> omega

theorem isUpperHexLetter_lowerChar (c : Nat) : isUpperHexLetter (lowerChar c) = false := by
  unfold isUpperHexLetter lowerChar
  split_ifs with h <;>
    simp only [Bool.eq_false_iff, ne_eq, Bool.and_eq_true, decide_eq_true_eq, not_and] <;>
    omega

theorem any_upper_map_lower (s : JStr) : (s.map lowerChar).any isUpperHexLetter = false := by
  rw [List.any_eq_false]
  intro x hx
  obtain ⟨a, _, rfl⟩ := List.mem_map.mp hx
  simp [isUpperHexLetter_lowerChar]

theorem upperThenLower_map_lower (s : JStr) : upperThenLower (s.map lowerChar) = false := by
  induction s with
  | nil => rfl
  | cons a t ih =>
    simp only [List.map_cons, upperThenLower, isUpperHexLetter_lowerChar, Bool.false_and,
      Bool.false_or]
    exact ih

theorem lowerThenUpper_map_lower (s : JStr) : lowerThenUpper (s.map lowerChar) = false := by
  induction s with
  | nil => rfl
  | cons a t ih =>
    simp only [List.map_cons, lowerThenUpper, any_upper_map_lower, Bool.and_false,
      Bool.false_or]
    exact ih

theorem hasMixedHexCase_toLower (s : JStr) : hasMixedHexCase (toLower s) = false := by
  simp [hasMixedHexCase, toLower, upperThenLower_map_lower, lowerThenUpper_map_lower]

theorem range_map_getD {β : Type} (l : List Nat) (f : Nat → β) :
    (List.range l.length).map (fun i => f (l.getD i 0)) = l.map f := by
  induction l with
  | nil => simp
  | cons a t ih =>
    rw [List.length_cons, List.range_succ_eq_map, List.map_cons, List.map_map, List.map_cons]
    have h0 : f ((a :: t).getD 0 0) = f a := by simp
    rw [h0]
    congr 1

theorem matchesAddrHex_shape (x : JStr) (h : matchesAddrHex x = true) :
    ∃ rest : JStr, with0xMark x = 48 :: 120 :: rest ∧ rest.length = 40 ∧
      rest.all isHexCode = true := by
  unfold matchesAddrHex at h
  split at h
  case _ rest =>
    refine ⟨rest, rfl, ?_, ?_⟩
    · have := (Bool.and_eq_true _ _).mp h
      simpa using this.1
    · exact ((Bool.and_eq_true _ _).mp h).2
  case _ hne =>
    refine ⟨x, ?_, ?_, ?_⟩
    · unfold with0xMark
      split
      case _ rest2 => exact absurd rfl (by exact fun hc => hne rest2 hc)
      case _ => rfl
    · have := (Bool.and_eq_true _ _).mp h
      simpa using this.1
    · exact ((Bool.and_eq_true _ _).mp h).2

theorem normalizeAddress_some_shape (x y : JStr) (h : normalizeAddress x = some y) :
    matchesAddrHex x = true ∧ y = toLower (getChecksumAddress (with0xMark x)) := by
  unfold normalizeAddress getAddress at h
  by_cases hm : matchesAddrHex x = true
  · refine ⟨hm, ?_⟩
    simp only [hm, if_true] at h
    by_cases hmix :
        (hasMixedHexCase (with0xMark x) &&
          !(getChecksumAddress (with0xMark x) == with0xMark x)) = true
    · simp [hmix] at h
    · simp only [Bool.not_eq_true] at hmix
      simp only [hmix, Bool.false_eq_true, if_false] at h
      simp only [Option.some.injEq] at h
      exact h.symm
  · simp only [Bool.not_eq_true] at hm
    simp [hm] at h

theorem toLower_getChecksumAddress_of_shape (a rest : JStr) (ha : a = 48 :: 120 :: rest)
    (hlen : rest.length = 40) : toLower (getChecksumAddress a) = toLower a := by
  subst ha
  unfold getChecksumAddress
  simp only [toLower, List.map_cons, List.drop_succ_cons, List.drop_zero, List.map_map,
    List.cons.injEq, true_and]
  have hstep : ∀ i ∈ List.range 40,
      (lowerChar ∘ fun i =>
        let b := (Keccak.keccak256 (rest.map lowerChar)).getD (i / 2) 0
        let nib := if i % 2 == 0 then b >>> 4 else b &&& 15
        let c := (rest.map lowerChar).getD i 0
        if 8 ≤ nib then upperChar c else c) i =
      lowerChar ((rest.map lowerChar).getD i 0) := by
    intro i _
    simp only [Function.comp]
    split_ifs <;> simp [lowerChar_upperChar]
  rw [List.map_congr_left hstep]
  have hlen2 : (rest.map lowerChar).length = 40 := by simp [hlen]
  rw [← hlen2, range_map_getD]
  simp only [List.map_map]
  exact List.map_congr_left (fun c _ => lowerChar_lowerChar c)

theorem normalizeAddress_eq_toLower (x y : JStr) (h : normalizeAddress x = some y) :
    y = toLower (with0xMark x) := by
  obtain ⟨hm, hy⟩ := normalizeAddress_some_shape x y h
  obtain ⟨rest, hw, hlen, _⟩ := matchesAddrHex_shape x hm
  rw [hy, toLower_getChecksumAddress_of_shape _ rest hw hlen]

theorem contains46_eq_false_of_hex (l : JStr) (h : l.all isHexCode = true) :
    l.contains 46 = false := by
  induction l with
  | nil => rfl
  | cons c t ih =>
    simp only [List.all_cons, Bool.and_eq_true] at h
    have hc : ((46 : Nat) == c) = false := by
      rw [beq_eq_false_iff_ne]
      intro hk
      subst hk
      exact absurd h.1 (by decide)
    rw [List.contains_cons, hc, Bool.false_or]
    exact ih h.2

theorem isENS_eq_false_of_matches (v : JStr) (h : matchesAddrHex v = true) :
    isENS v = false := by
  unfold matchesAddrHex at h
  unfold isENS
  split at h
  case _ rest =>
    have hhex := ((Bool.and_eq_true _ _).mp h).2
    have hrest := contains46_eq_false_of_hex rest hhex
    rw [List.contains_cons, List.contains_cons, hrest]
    decide
  case _ =>
    exact contains46_eq_false_of_hex v ((Bool.and_eq_true _ _).mp h).2

theorem normalizeAddress_isENS_false (v a : JStr) (h : normalizeAddress v = some a) :
    isENS v = false :=
  isENS_eq_false_of_matches v (normalizeAddress_some_shape v a h).1

theorem normalizeAddress_idem_aux (x y : JStr) (h : normalizeAddress x = some y) :
    normalizeAddress y = some y := by
  obtain ⟨hm, _⟩ := normalizeAddress_some_shape x y h
  obtain ⟨rest, hw, hlen, hhex⟩ := matchesAddrHex_shape x hm
  have hyl : y = toLower (with0xMark x) := normalizeAddress_eq_toLower x y h
  have hy : y = 48 :: 120 :: rest.map lowerChar := by
    rw [hyl, hw]
    show toLower (48 :: 120 :: rest) = _
    simp only [toLower, List.map_cons]
    rw [show lowerChar 48 = 48 from by decide, show lowerChar 120 = 120 from by decide]
  have hmy : matchesAddrHex y = true := by
    rw [hy]
    have h1 : ((rest.map lowerChar).length == 40) = true := by simp [hlen]
    have h2 : (rest.map lowerChar).all isHexCode = true := by
      rw [List.all_map]
      rw [List.all_eq_true] at hhex ⊢
      intro c hc
      simpa using isHexCode_lowerChar c (by simpa using hhex c hc)
    show ((rest.map lowerChar).length == 40 && (rest.map lowerChar).all isHexCode) = true
    rw [h1, h2]
    rfl
  have hwy : with0xMark y = y := by
    rw [hy]
    rfl
  have hmixy : hasMixedHexCase y = false := by
    rw [hyl]
    exact hasMixedHexCase_toLower _
  have hly : toLower y = y := by
    rw [hyl]
    exact toLower_toLower _
  have hgy : toLower (getChecksumAddress y) = y := by
    rw [toLower_getChecksumAddress_of_shape y (rest.map lowerChar) hy (by simp [hlen]), hly]
  unfold normalizeAddress getAddress
  simp only [hmy, if_true, hwy, hmixy, Bool.false_and, Bool.false_eq_true, if_false]
  rw [hgy]

/-- C9: normalizeAddress is idempotent on every input it accepts, which includes every
valid checksum-formatted address: composing it with itself equals one application. The
hypothesis states that the input is accepted, that is, valid. -/
theorem c9_normalizeAddress_idempotent (x : JStr) (h : (normalizeAddress x).isSome = true) :
    normalizeTwice x = normalizeAddress x := by
  cases hn : normalizeAddress x with
  | none =>
    rw [hn] at h
    simp at h
  | some y => simp [normalizeTwice, hn, normalizeAddress_idem_aux x y hn]

/-- Witness for C9 at the EIP-55 reference checksum address. -/
theorem c9_witness :
    (normalizeAddress addrChk).isSome = true ∧
      normalizeTwice addrChk = normalizeAddress addrChk :=
  ⟨by decide, c9_normalizeAddress_idempotent addrChk (by decide)⟩

/-- C8: isValidIdentifier is true exactly when the identifier classifies as name-style
with length above 3, or classifies as address-style and normalizeAddress accepts it; and
every string without a dot classifies as address-style. -/
theorem c8_isValidIdentifier_spec :
    (∀ s : JStr, isValidIdentifier s = true ↔
      ((classify s = IdClass.NameStyle ∧ s.length > 3) ∨
       (classify s = IdClass.AddressStyle ∧ (normalizeAddress s).isSome = true))) ∧
    (∀ s : JStr, s.contains 46 = false → classify s = IdClass.AddressStyle) := by
  constructor
  · intro s
    by_cases he : s.isEmpty = true
    · have hnil : s = [] := by simpa using he
      subst hnil
      decide
    · have he2 : s.isEmpty = false := by simpa using he
      by_cases hens : isENS s = true
      · simp [isValidIdentifier, he2, hens, classify]
      · have hens2 : isENS s = false := by simpa using hens
        simp [isValidIdentifier, he2, hens2, classify]
  · intro s h
    simp [classify, isENS, h]
    simpa using h

/-- Witness for C8 on the dot-free canonical address. -/
theorem c8_witness : classify addrA = IdClass.AddressStyle :=
  c8_isValidIdentifier_spec.2 addrA (by decide)

/-! Store round-trip lemmas for C7. -/

theorem find?_chatId_map_replace (l : Db) (k : JStr) (r : Reg) (chat : Int)
    (hfresh : ∀ p ∈ l, ¬ p.2.chatId = chat) (hr : r.chatId = chat) :
    (l.map (fun p => if p.1 == k then (k, r) else p)).find? (fun p => p.2.chatId == chat) =
      if l.any (fun p => p.1 == k) then some (k, r) else none := by
  induction l with
  | nil => simp
  | cons p l ih =>
    have hp2 : (p.2.chatId == chat) = false := by
      rw [beq_eq_false_iff_ne]
      exact hfresh p (by simp)
    by_cases hp : (p.1 == k) = true
    · simp only [List.map_cons, hp, if_true, List.any_cons, Bool.true_or]
      simp [List.find?_cons, hr]
    · simp only [Bool.not_eq_true] at hp
      simp only [List.map_cons, hp, Bool.false_eq_true, if_false, List.any_cons,
        Bool.false_or]
      rw [List.find?_cons_of_neg _ (by simp [hp2])]
      exact ih (fun q hq => hfresh q (by simp [hq]))

theorem find?_chatId_dbSet_fresh (db : Db) (k : JStr) (r : Reg) (chat : Int)
    (hfresh : ∀ p ∈ db, ¬ p.2.chatId = chat) (hr : r.chatId = chat) :
    (dbSet db k r).find? (fun p => p.2.chatId == chat) = some (k, r) := by
  unfold dbSet alistSet
  by_cases ha : (db.any fun p => p.1 == k) = true
  · simp only [ha, if_true]
    rw [find?_chatId_map_replace db k r chat hfresh hr]
    simp [ha]
  · simp only [Bool.not_eq_true] at ha
    simp only [ha, Bool.false_eq_true, if_false]
    rw [List.find?_append]
    have hnone : db.find? (fun p => p.2.chatId == chat) = none := by
      rw [List.find?_eq_none]
      intro p hp
      simp [hfresh p hp]
    simp [hnone, List.find?_cons, hr]

theorem getAddressByChatId_dbSet_fresh (e : Eff) (db : Db) (k : JStr) (r : Reg) (chat : Int)
    (he : e.findThrows = false) (hfresh : ∀ p ∈ db, ¬ p.2.chatId = chat)
    (hr : r.chatId = chat) :
    getAddressByChatId e (dbSet db k r) chat = .ok (some ⟨r.ens, r.address, k⟩) := by
  unfold getAddressByChatId
  rw [he]
  simp only [Bool.false_eq_true, if_false]
  rw [find?_chatId_dbSet_fresh db k r chat hfresh hr]

theorem getChecksumAddress_congr (u v : JStr) (h : toLower u = toLower v) :
    getChecksumAddress u = getChecksumAddress v := by
  unfold getChecksumAddress
  rw [h]

theorem getChecksumAddress_shape (a : JStr)
    (hhex : ((toLower a).drop 2).all isHexCode = true)
    (hlen : ((toLower a).drop 2).length = 40) :
    ∃ cs, getChecksumAddress a = 48 :: 120 :: cs ∧ cs.length = 40 ∧
      cs.all isHexCode = true := by
  refine ⟨_, rfl, ?_, ?_⟩
  · simp
  · rw [List.all_eq_true]
    intro x hx
    obtain ⟨i, hi, hxe⟩ := List.mem_map.mp hx
    have hi40 : i < 40 := List.mem_range.mp hi
    have hc : isHexCode (((toLower a).drop 2).getD i 0) = true := by
      rw [List.getD_eq_getElem _ _ (by rw [hlen]; exact hi40)]
      exact (List.all_eq_true.mp hhex) _ (List.getElem_mem _)
    rw [← hxe]
    simp only
    split_ifs <;> first
      | exact isHexCode_upperChar _ hc
      | exact hc

theorem normalizeAddress_getChecksumAddress (addr : JStr)
    (h : normalizeAddress addr = some addr) :
    normalizeAddress (getChecksumAddress addr) = some addr := by
  obtain ⟨hm, _⟩ := normalizeAddress_some_shape addr addr h
  obtain ⟨rest0, hw, hlen0, hhex0⟩ := matchesAddrHex_shape addr hm
  have hal : addr = toLower (with0xMark addr) := normalizeAddress_eq_toLower addr addr h
  have haddr : addr = 48 :: 120 :: rest0.map lowerChar := by
    rw [hal, hw]
    show toLower (48 :: 120 :: rest0) = _
    simp only [toLower, List.map_cons]
    rw [show lowerChar 48 = 48 from by decide, show lowerChar 120 = 120 from by decide]
  have hlen : (rest0.map lowerChar).length = 40 := by simp [hlen0]
  have hhex : (rest0.map lowerChar).all isHexCode = true := by
    rw [List.all_map, List.all_eq_true]
    rw [List.all_eq_true] at hhex0
    intro c hc
    simpa using isHexCode_lowerChar c (by simpa using hhex0 c hc)
  have htl : toLower addr = addr := by
    rw [hal]
    exact toLower_toLower _
  have hgl : toLower (getChecksumAddress addr) = addr := by
    rw [toLower_getChecksumAddress_of_shape addr (rest0.map lowerChar) haddr hlen, htl]
  have hdrop : (toLower addr).drop 2 = rest0.map lowerChar := by
    rw [htl]
    rw [haddr]
    rfl
  obtain ⟨cs, hCs, hCl, hCh⟩ :=
    getChecksumAddress_shape addr (by rw [hdrop]; exact hhex) (by rw [hdrop]; exact hlen)
  have hmC : matchesAddrHex (getChecksumAddress addr) = true := by
    rw [hCs]
    show ((cs.length == 40) && cs.all isHexCode) = true
    simp [hCl, hCh]
  have hwC : with0xMark (getChecksumAddress addr) = getChecksumAddress addr := by
    rw [hCs]
    rfl
  have hresult :
      getChecksumAddress (getChecksumAddress addr) = getChecksumAddress addr := by
    exact getChecksumAddress_congr _ _ (by rw [hgl, htl])
  unfold normalizeAddress getAddress
  simp only [hmC, if_true, hwC, hresult, beq_self_eq_true, Bool.not_true, Bool.and_false,
    Bool.false_eq_true, if_false]
  rw [hgl]

/-- C7 counterexample: after saving the canonical lowercase address for chat 7, the
lookup of the mixed-case variant addrBad of that same address misses, because ethers
rejects a mixed-case string whose casing disagrees with the EIP-55 checksum; so not
every case variant of a stored address finds the chat. -/
theorem c7_counterexample :
    toLower addrBad = addrA ∧
    getChatIdByIdentifier okOracle false (saveAddressDb [] none addrA 7) addrBad =
      .ok none ∧
    ¬ (Except.ok (none : Option Int) : Except Unit (Option Int)) = .ok (some 7) := by
  refine ⟨by decide, by decide, by decide⟩

/-- C7 amended: after save(alias, addr, chat) into a store where chat is fresh,
findByChat(chat) returns the saved alias, address and document id, and findByIdentifier
returns chat for every case variant that normalizeAddress accepts; those variants
include the canonical lowercase form itself and the EIP-55 checksum form, but not a
mixed-case variant whose casing disagrees with the checksum. -/
theorem c7_amended (db : Db) (al : Option JStr) (addr v : JStr) (chat : Int)
    (o : EnsOracle) (e : Eff) (he : e.findThrows = false)
    (hfresh : ∀ p ∈ db, ¬ p.2.chatId = chat) :
    getAddressByChatId e (saveAddressDb db al addr chat) chat =
      .ok (some ⟨ensOrNull al, addr, addr⟩) ∧
    (normalizeAddress v = some addr →
      getChatIdByIdentifier o false (saveAddressDb db al addr chat) v = .ok (some chat)) ∧
    (normalizeAddress addr = some addr →
      normalizeAddress (getChecksumAddress addr) = some addr) := by
  refine ⟨?_, ?_, fun hc => normalizeAddress_getChecksumAddress addr hc⟩
  · exact getAddressByChatId_dbSet_fresh e db addr ⟨ensOrNull al, addr, chat⟩ chat he
      hfresh rfl
  · intro hv
    unfold getChatIdByIdentifier
    rw [normalizeAddress_isENS_false v addr hv]
    have hget : dbGet (saveAddressDb db al addr chat) addr =
        some ⟨ensOrNull al, addr, chat⟩ := by
      unfold saveAddressDb dbGet dbSet
      exact alistGet_set_self db addr _
    simp [hv, hget]

/-- Witness for C7 amended: the checksum variant of the stored address finds chat 7. -/
theorem c7_witness :
    getChatIdByIdentifier okOracle false (saveAddressDb [] none addrA 7) addrChk =
      .ok (some 7) :=
  (c7_amended [] none addrA addrChk 7 okOracle eff0 rfl (by simp)).2.1 (by decide)

/-- C3 counterexample: with the resolution collaborator throwing on a name-style
identifier, the endpoint answers 404 NotFound, exactly as for an identifier that does
not resolve, not a 500-class response. -/
theorem c3_counterexample :
    alertHandler errOracle false false []
        ⟨some ensName, some (str ("x")), some (str ("TEST"))⟩ = .notFound ∧
    statusOf .notFound = 404 ∧
    alertHandler errOracle false false []
        ⟨some ensName, some (str ("x")), some (str ("TEST"))⟩ =
      alertHandler okOracle false false []
        ⟨some ensName, some (str ("x")), some (str ("TEST"))⟩ := by
  refine ⟨by decide, rfl, by decide⟩

/-- C3 amended: a thrown resolution error is caught inside resolveENS and converted to
null, so the endpoint returns the same 404 NotFound as for an unknown name; a 500-class
response arises only when a later collaborator throws, namely the store lookup after a
successful resolution, or the Telegram send. -/
theorem c3_amended (o : EnsOracle) (db : Db) (ens msg ty : JStr) (gt st : Bool)
    (hens : isENS ens = true) (hlen : ens.length > 3) (hmsg : ¬ msg = [])
    (hty : ¬ ty = []) (hlm : ¬ msg.length > 1000) (hlt : ¬ ty.length > 100) :
    (o ens = .error () →
      alertHandler o gt st db ⟨some ens, some msg, some ty⟩ = .notFound) ∧
    (∀ a r, o ens = .ok (some a) → dbGet db (toLower a) = some r → ¬ r.chatId = 0 →
      alertHandler o false true db ⟨some ens, some msg, some ty⟩ = .internalError) ∧
    (∀ a, o ens = .ok (some a) →
      alertHandler o true st db ⟨some ens, some msg, some ty⟩ = .internalError) := by
  have hne : ens.isEmpty = false := by
    cases ens with
    | nil => simp [isENS] at hens
    | cons c t => rfl
  have htr : (truthy (some ens) && truthy (some msg) && truthy (some ty)) = true := by
    simp [truthy, hne]
    exact ⟨by simpa using hmsg, by simpa using hty⟩
  have hvalid : isValidIdentifier ens = true := by
    unfold isValidIdentifier
    rw [hne, hens]
    simp [hlen]
  refine ⟨?_, ?_, ?_⟩
  · intro herr
    unfold alertHandler
    rw [htr]
    simp only [Bool.not_true, Bool.false_eq_true, if_false, Option.getD_some]
    rw [hvalid]
    simp only [Bool.not_true, Bool.false_eq_true, if_false, if_neg hlm, if_neg hlt]
    unfold getChatIdByIdentifier resolveENS
    rw [hens, herr]
    simp
  · intro a r hok hget hchat
    unfold alertHandler
    rw [htr]
    simp only [Bool.not_true, Bool.false_eq_true, if_false, Option.getD_some]
    rw [hvalid]
    simp only [Bool.not_true, Bool.false_eq_true, if_false, if_neg hlm, if_neg hlt]
    unfold getChatIdByIdentifier resolveENS
    rw [hens, hok]
    simp only [if_true, Bool.false_eq_true, if_false]
    rw [hget]
    simp [hchat]
  · intro a hok
    unfold alertHandler
    rw [htr]
    simp only [Bool.not_true, Bool.false_eq_true, if_false, Option.getD_some]
    rw [hvalid]
    simp only [Bool.not_true, Bool.false_eq_true, if_false, if_neg hlm, if_neg hlt]
    unfold getChatIdByIdentifier resolveENS
    rw [hens, hok]
    simp

/-- Witness for C3 amended at the concrete erroring oracle. -/
theorem c3_witness :
    alertHandler errOracle false false []
        ⟨some ensName, some (str ("x")), some (str ("TEST"))⟩ = .notFound :=
  (c3_amended errOracle [] ensName (str ("x")) (str ("TEST")) false false (by decide)
    (by decide) (by decide) (by decide) (by decide) (by decide)).1 rfl

/-- C1 counterexample: the rate limiter is route middleware that runs before every
handler check, so a request with a missing message field but exhausted quota receives
429 instead of the 400 MissingFields that the claimed ordering requires, and the
request still consumes quota although check 1 fails. -/
theorem c1_counterexample :
    truthy (AlertRequest.mk (some ensName) none (some (str ("TEST")))).message = false ∧
    (alertRoute okOracle false false [] [(ensName, 100)] (str ("ip"))
        ⟨some ensName, none, some (str ("TEST"))⟩).fst = .rateLimited ∧
    ¬ ApiResponse.rateLimited = ApiResponse.missingFields ∧
    limGet (alertRoute okOracle false false [] [(ensName, 100)] (str ("ip"))
        ⟨some ensName, none, some (str ("TEST"))⟩).snd ensName = 101 := by
  refine ⟨rfl, by decide, by decide, by decide⟩

/-- C1 amended: the rate limiter middleware keys on the raw ens field, consumes quota on
every request and answers 429 before any validation whenever the incremented count
exceeds 100; when quota remains, the handler runs checks 1 to 4 in the stated order with
the first failure short-circuiting, then the registration lookup and the send. -/
theorem c1_amended (o : EnsOracle) (gt st : Bool) (db : Db) (lim : LimState) (ip : JStr)
    (req : AlertRequest) :
    (let key := if truthy req.ens then req.ens.getD [] else ip
     let c := limGet lim key + 1
     (alertRoute o gt st db lim ip req).snd = limSet lim key c ∧
     (c > 100 → (alertRoute o gt st db lim ip req).fst = .rateLimited) ∧
     (¬ c > 100 →
       (alertRoute o gt st db lim ip req).fst = alertHandler o gt st db req)) ∧
    ((truthy req.ens && truthy req.message && truthy req.alertType) = false →
      alertHandler o gt st db req = .missingFields) ∧
    ((truthy req.ens && truthy req.message && truthy req.alertType) = true →
      isValidIdentifier (req.ens.getD []) = false →
      alertHandler o gt st db req = .invalidIdentifier) ∧
    ((truthy req.ens && truthy req.message && truthy req.alertType) = true →
      isValidIdentifier (req.ens.getD []) = true →
      (req.message.getD []).length > 1000 →
      alertHandler o gt st db req = .messageTooLong) ∧
    ((truthy req.ens && truthy req.message && truthy req.alertType) = true →
      isValidIdentifier (req.ens.getD []) = true →
      ¬ (req.message.getD []).length > 1000 →
      (req.alertType.getD []).length > 100 →
      alertHandler o gt st db req = .alertTypeTooLong) ∧
    ((truthy req.ens && truthy req.message && truthy req.alertType) = true →
      isValidIdentifier (req.ens.getD []) = true →
      ¬ (req.message.getD []).length > 1000 →
      ¬ (req.alertType.getD []).length > 100 →
      alertHandler o gt st db req =
        match getChatIdByIdentifier o gt db (req.ens.getD []) with
        | .error _ => .internalError
        | .ok none => .notFound
        | .ok (some c) =>
          if c == 0 then .notFound else if st then .internalError else .success) := by
  refine ⟨?_, ?_, ?_, ?_, ?_, ?_⟩
  · refine ⟨?_, ?_, ?_⟩
    · unfold alertRoute
      split_ifs <;> exact snd_ite_pair _ _ _ _
    · intro hc
      unfold alertRoute
      simp only [if_pos hc]
    · intro hc
      unfold alertRoute
      simp only [if_neg hc]
  · intro h
    simp only [alertHandler, h, Bool.not_false, if_true]
  · intro h hv
    simp only [alertHandler, h, hv, Bool.not_true, Bool.not_false, Bool.false_eq_true,
      if_false, if_true]
  · intro h hv hm
    simp only [alertHandler, h, hv, Bool.not_true, Bool.not_false, Bool.false_eq_true,
      if_false, if_true, if_pos hm]
  · intro h hv hm ht
    simp only [alertHandler, h, hv, Bool.not_true, Bool.not_false, Bool.false_eq_true,
      if_false, if_true, if_neg hm, if_pos ht]
  · intro h hv hm ht
    simp only [alertHandler, h, hv, Bool.not_true, Bool.not_false, Bool.false_eq_true,
      if_false, if_true, if_neg hm, if_neg ht]

/-- Witness for C1 amended: at exhausted quota the route answers 429. -/
theorem c1_witness :
    (alertRoute okOracle false false [] [(ensName, 100)] (str ("ip"))
        ⟨some ensName, none, some (str ("TEST"))⟩).fst = .rateLimited :=
  (c1_amended okOracle false false [] [(ensName, 100)] (str ("ip"))
    ⟨some ensName, none, some (str ("TEST"))⟩).1.2.1 (by decide)

/-! Bot state machine lemmas. -/

theorem contains_regDelete_self (l : List Int) (k : Int) :
    (regDelete l k).contains k = false := by
  rw [Bool.eq_false_iff]
  intro hc
  have hmem : k ∈ regDelete l k := List.mem_of_elem_eq_true hc
  have := List.of_mem_filter hmem
  simp at this

theorem not_mem_regDelete_self (l : List Int) (k : Int) : k ∉ regDelete l k := by
  intro hmem
  have := List.of_mem_filter hmem
  simp at this

theorem contains_regInsert_mono (l : List Int) (k k2 : Int) (h : l.contains k2 = true) :
    (regInsert l k).contains k2 = true := by
  unfold regInsert
  split_ifs with hc
  · exact h
  · have hmem : k2 ∈ l := List.mem_of_elem_eq_true h
    exact List.elem_eq_true_of_mem (List.mem_append_left _ hmem)

theorem isENS_isEmpty_false (u : JStr) (h : isENS u = true) : u.isEmpty = false := by
  cases u with
  | nil => simp [isENS] at h
  | cons c t => rfl

theorem ensOrNull_some_of_nonempty (u : JStr) (h : u.isEmpty = false) :
    ensOrNull (some u) = some u := by
  simp [ensOrNull, h]

/-- C5: in AwaitingRegistration with no collaborator failure, an invalid address or a
failed name resolution produces the error reply and leaves the chat pending and the
store untouched; a valid identifier saves the registration, sends the confirmation, and
removes the pending entry, so the chat returns to Idle. -/
theorem c5_registration_flow (e : Eff) (s : BotState) (chat : Int) (t : JStr)
    (hsend : e.sendThrows = false) (hsave : e.saveThrows = false)
    (hpend : s.pendingRegistrations.contains chat = true) (hne : t.isEmpty = false) :
    (isENS (trim t) = false → normalizeAddress (trim t) = none →
      handleIdentifierInput e s chat (some t) =
        { s with sent := s.sent ++ [(chat, Reply.invalidAddress)] } ∧
      (handleIdentifierInput e s chat (some t)).pendingRegistrations.contains chat = true ∧
      (handleIdentifierInput e s chat (some t)).db = s.db) ∧
    (isENS (trim t) = true → resolveENS e.resolve (trim t) = none →
      handleIdentifierInput e s chat (some t) =
        { s with sent := s.sent ++ [(chat, Reply.resolving), (chat, Reply.resolveFailed)] } ∧
      (handleIdentifierInput e s chat (some t)).pendingRegistrations.contains chat = true ∧
      (handleIdentifierInput e s chat (some t)).db = s.db) ∧
    (∀ a, isENS (trim t) = false → normalizeAddress (trim t) = some a →
      handleIdentifierInput e s chat (some t) =
        { s with db := saveAddressDb s.db none a chat,
                 pendingRegistrations := regDelete s.pendingRegistrations chat,
                 sent := s.sent ++ [(chat, Reply.registeredAddress)] } ∧
      (handleIdentifierInput e s chat (some t)).pendingRegistrations.contains chat =
        false) ∧
    (∀ a, isENS (trim t) = true → resolveENS e.resolve (trim t) = some a →
      handleIdentifierInput e s chat (some t) =
        { s with db := saveAddressDb s.db (some (trim t)) a chat,
                 pendingRegistrations := regDelete s.pendingRegistrations chat,
                 sent := s.sent ++ [(chat, Reply.resolving), (chat, Reply.registeredENS)] } ∧
      (handleIdentifierInput e s chat (some t)).pendingRegistrations.contains chat =
        false) := by
  refine ⟨?_, ?_, ?_, ?_⟩
  · intro h1 h2
    have heq : handleIdentifierInput e s chat (some t) =
        { s with sent := s.sent ++ [(chat, Reply.invalidAddress)] } := by
      simp [handleIdentifierInput, handleIdentifierInputBody, hne, h1, h2, sendMessage,
        hsend]
    rw [heq]
    exact ⟨rfl, hpend, rfl⟩
  · intro h1 h2
    have heq : handleIdentifierInput e s chat (some t) =
        { s with sent := s.sent ++ [(chat, Reply.resolving), (chat, Reply.resolveFailed)] } := by
      simp [handleIdentifierInput, handleIdentifierInputBody, hne, h1, h2, sendMessage,
        hsend]
    rw [heq]
    exact ⟨rfl, hpend, rfl⟩
  · intro a h1 h2
    have heq : handleIdentifierInput e s chat (some t) =
        { s with db := saveAddressDb s.db none a chat,
                 pendingRegistrations := regDelete s.pendingRegistrations chat,
                 sent := s.sent ++ [(chat, Reply.registeredAddress)] } := by
      simp [handleIdentifierInput, handleIdentifierInputBody, hne, h1, h2, sendMessage,
        saveAddress, hsend, hsave, regDelete]
    rw [heq]
    exact ⟨rfl, contains_regDelete_self _ _⟩
  · intro a h1 h2
    have heq : handleIdentifierInput e s chat (some t) =
        { s with db := saveAddressDb s.db (some (trim t)) a chat,
                 pendingRegistrations := regDelete s.pendingRegistrations chat,
                 sent := s.sent ++ [(chat, Reply.resolving), (chat, Reply.registeredENS)] } := by
      simp [handleIdentifierInput, handleIdentifierInputBody, hne, h1, h2, sendMessage,
        saveAddress, hsend, hsave, regDelete]
    rw [heq]
    exact ⟨rfl, contains_regDelete_self _ _⟩

/-- Witness for C5: a valid lowercase address registers chat 1 and clears the pending
entry. -/
theorem c5_witness :
    handleIdentifierInput eff0 ⟨[1], [], [], [], []⟩ 1 (some addrA) =
      { db := saveAddressDb [] none addrA 1,
        pendingRegistrations := regDelete [1] 1, pendingChanges := [],
        pendingDeletions := [], sent := [(1, Reply.registeredAddress)] } ∧
    (handleIdentifierInput eff0 ⟨[1], [], [], [], []⟩ 1 (some addrA)).pendingRegistrations.contains 1 = false := by
  have h := (c5_registration_flow eff0 ⟨[1], [], [], [], []⟩ 1 addrA rfl rfl (by decide)
    (by decide)).2.2.1 addrA (by decide) (by decide)
  exact ⟨h.1, h.2⟩

/-- C4: in AwaitingChange with a valid new identifier and no collaborator failure, the
final store is the save of the new record applied after the delete of the old document;
the new address is bound to the same chat, the old address is gone whenever it differs
from the new one, an old identifier equal to the new one is not an error, and the
pending change entry is removed. -/
theorem c4_change_flow (e : Eff) (s : BotState) (chat : Int) (t oldA : JStr)
    (oldE : Option JStr) (hsend : e.sendThrows = false) (hsave : e.saveThrows = false)
    (hdel : e.deleteThrows = false)
    (hpend : mget s.pendingChanges chat = some ⟨oldA, oldE⟩) (hne : t.isEmpty = false) :
    (∀ b, isENS (trim t) = false → normalizeAddress (trim t) = some b →
      handleAddressChange e s chat (some t) =
        { s with db := saveAddressDb (dbDelete s.db oldA) none b chat,
                 pendingChanges := mdel s.pendingChanges chat,
                 sent := s.sent ++ [(chat, Reply.changedAddress)] } ∧
      dbGet (saveAddressDb (dbDelete s.db oldA) none b chat) b = some ⟨none, b, chat⟩ ∧
      (¬ oldA = b →
        dbGet (saveAddressDb (dbDelete s.db oldA) none b chat) oldA = none) ∧
      mhas (mdel s.pendingChanges chat) chat = false) ∧
    (∀ b, isENS (trim t) = true → resolveENS e.resolve (trim t) = some b →
      handleAddressChange e s chat (some t) =
        { s with db := saveAddressDb (dbDelete s.db oldA) (some (trim t)) b chat,
                 pendingChanges := mdel s.pendingChanges chat,
                 sent := s.sent ++ [(chat, Reply.resolving), (chat, Reply.changedENS)] } ∧
      dbGet (saveAddressDb (dbDelete s.db oldA) (some (trim t)) b chat) b =
        some ⟨some (trim t), b, chat⟩ ∧
      (¬ oldA = b →
        dbGet (saveAddressDb (dbDelete s.db oldA) (some (trim t)) b chat) oldA = none) ∧
      mhas (mdel s.pendingChanges chat) chat = false) := by
  constructor
  · intro b h1 h2
    refine ⟨?_, ?_, ?_, alistHas_del_self _ _⟩
    · simp [handleAddressChange, handleAddressChangeBody, hne, hpend, h1, h2, sendMessage,
        saveAddress, deleteAddress, hsend, hsave, hdel]
    · unfold saveAddressDb dbGet dbSet
      exact alistGet_set_self _ _ _
    · intro hob
      unfold saveAddressDb dbGet dbSet dbDelete
      rw [alistGet_set_ne _ _ _ _ hob]
      exact alistGet_del_self _ _
  · intro b h1 h2
    have htne : (trim t).isEmpty = false := isENS_isEmpty_false _ h1
    refine ⟨?_, ?_, ?_, alistHas_del_self _ _⟩
    · simp [handleAddressChange, handleAddressChangeBody, hne, hpend, h1, h2, sendMessage,
        saveAddress, deleteAddress, hsend, hsave, hdel]
    · unfold saveAddressDb dbGet dbSet
      rw [ensOrNull_some_of_nonempty _ htne]
      exact alistGet_set_self _ _ _
    · intro hob
      unfold saveAddressDb dbGet dbSet dbDelete
      rw [alistGet_set_ne _ _ _ _ hob]
      exact alistGet_del_self _ _

/-- Witness for C4: chat 1 changes its registration from addrA to a different valid
address; the store afterwards binds the new address and no longer holds the old one. -/
theorem c4_witness :
    handleAddressChange eff0
        ⟨[], [(1, ⟨addrA, none⟩)], [], [(addrA, ⟨none, addrA, 1⟩)], []⟩ 1
        (some (str ("0x1111111111111111111111111111111111111111"))) =
      { pendingRegistrations := [], pendingChanges := mdel [(1, ⟨addrA, none⟩)] 1,
        pendingDeletions := [],
        db := saveAddressDb (dbDelete [(addrA, ⟨none, addrA, 1⟩)] addrA) none
          (str ("0x1111111111111111111111111111111111111111")) 1,
        sent := [(1, Reply.changedAddress)] } ∧
    dbGet (saveAddressDb (dbDelete [(addrA, ⟨none, addrA, 1⟩)] addrA) none
        (str ("0x1111111111111111111111111111111111111111")) 1)
      (str ("0x1111111111111111111111111111111111111111")) =
      some ⟨none, str ("0x1111111111111111111111111111111111111111"), 1⟩ := by
  have h := (c4_change_flow eff0
    ⟨[], [(1, ⟨addrA, none⟩)], [], [(addrA, ⟨none, addrA, 1⟩)], []⟩ 1
    (str ("0x1111111111111111111111111111111111111111")) addrA none rfl rfl rfl
    (by decide) (by decide)).1
    (str ("0x1111111111111111111111111111111111111111")) (by decide) (by decide)
  exact ⟨h.1, h.2.1⟩

/-- C6 counterexample: the reply with surrounding blanks is not a case-insensitive match
of y or yes, so by the claim it should cancel and leave the registration; the code trims
it first and deletes the registration, replying confirmed. -/
theorem c6_counterexample :
    ¬ toLower (str (" y ")) = str ("y") ∧
    ¬ toLower (str (" y ")) = str ("yes") ∧
    handleDeletionConfirmation eff0
        { s0 with pendingDeletions := [(1, ⟨addrA, none⟩)] } 1 (some (str (" y "))) =
      ⟨[], [], [], [], [(1, Reply.deletedConfirmed)]⟩ ∧
    ¬ s0.db = [] := by
  refine ⟨by decide, by decide, by decide, by decide⟩

/-- C6 amended: the match is computed on the whitespace-trimmed lowercased reply; when
the trimmed reply is y or yes the registration is deleted and the confirmation sent,
any other string cancels with the registration untouched, and both branches remove the
pending deletion entry, returning the chat to Idle. -/
theorem c6_deletion_flow (e : Eff) (s : BotState) (chat : Int) (t addr : JStr)
    (ens : Option JStr) (hsend : e.sendThrows = false) (hdel : e.deleteThrows = false)
    (hpend : mget s.pendingDeletions chat = some ⟨addr, ens⟩) :
    (toLower (trim t) = str ("y") ∨ toLower (trim t) = str ("yes") →
      handleDeletionConfirmation e s chat (some t) =
        { s with db := dbDelete s.db addr,
                 pendingDeletions := mdel s.pendingDeletions chat,
                 sent := s.sent ++ [(chat, Reply.deletedConfirmed)] }) ∧
    (¬ toLower (trim t) = str ("y") → ¬ toLower (trim t) = str ("yes") →
      handleDeletionConfirmation e s chat (some t) =
        { s with pendingDeletions := mdel s.pendingDeletions chat,
                 sent := s.sent ++ [(chat, Reply.deleteCancelled)] }) ∧
    mhas (mdel s.pendingDeletions chat) chat = false := by
  refine ⟨?_, ?_, alistHas_del_self _ _⟩
  · intro hmatch
    have hb : (toLower (trim t) == str ("y") || toLower (trim t) == str ("yes")) = true := by
      rcases hmatch with h | h <;> simp [h]
    simp [handleDeletionConfirmation, handleDeletionConfirmationBody, hpend, hb,
      deleteAddress, hdel, sendMessage, hsend]
  · intro h1 h2
    have hb : (toLower (trim t) == str ("y") || toLower (trim t) == str ("yes")) = false := by
      rw [Bool.or_eq_false_iff]
      exact ⟨beq_eq_false_iff_ne.mpr h1, beq_eq_false_iff_ne.mpr h2⟩
    simp [handleDeletionConfirmation, handleDeletionConfirmationBody, hpend, hb,
      sendMessage, hsend]

/-- Witness for C6 amended: the reply n cancels, the store is untouched, and the pending
entry is gone. -/
theorem c6_witness :
    handleDeletionConfirmation eff0
        { s0 with pendingDeletions := [(1, ⟨addrA, none⟩)] } 1 (some (str ("n"))) =
      { s0 with pendingDeletions := mdel [(1, ⟨addrA, none⟩)] 1,
                sent := [(1, Reply.deleteCancelled)] } :=
  (c6_deletion_flow eff0 { s0 with pendingDeletions := [(1, ⟨addrA, none⟩)] } 1
    (str ("n")) addrA none rfl rfl (by decide)).2.1 (by decide) (by decide)

/-- C10: whenever the body of a pending-flow handler throws, the catch removes the
pending entry of that flow and sends the apology, so a dependency failure abandons the
flow; a mere validation failure instead leaves the pending entry in place. -/
theorem c10_catch_behavior (e : Eff) (s : BotState) (chat : Int) (text : Option JStr) :
    (∀ sMid, handleIdentifierInputBody e s chat text = .error sMid →
      (handleIdentifierInput e s chat text).pendingRegistrations.contains chat = false ∧
      (chat, Reply.registrationApology) ∈ (handleIdentifierInput e s chat text).sent) ∧
    (∀ sMid, handleAddressChangeBody e s chat text = .error sMid →
      mhas (handleAddressChange e s chat text).pendingChanges chat = false ∧
      (chat, Reply.changeApology) ∈ (handleAddressChange e s chat text).sent) ∧
    (∀ sMid, handleDeletionConfirmationBody e s chat text = .error sMid →
      mhas (handleDeletionConfirmation e s chat text).pendingDeletions chat = false ∧
      (chat, Reply.deleteApology) ∈ (handleDeletionConfirmation e s chat text).sent) ∧
    (∀ t, text = some t → t.isEmpty = false → e.sendThrows = false →
      isENS (trim t) = false → normalizeAddress (trim t) = none →
      (handleIdentifierInput e s chat text).pendingRegistrations =
        s.pendingRegistrations) := by
  refine ⟨?_, ?_, ?_, ?_⟩
  · intro sMid hb
    unfold handleIdentifierInput
    rw [hb]
    unfold sendIgnore sendMessage
    cases hs : e.sendThrows <;>
      simp [contains_regDelete_self] <;>
      exact not_mem_regDelete_self _ _
  · intro sMid hb
    unfold handleAddressChange
    rw [hb]
    unfold sendIgnore sendMessage
    cases hs : e.sendThrows <;>
      simp [mhas, mdel, alistHas_del_self]
  · intro sMid hb
    unfold handleDeletionConfirmation
    rw [hb]
    unfold sendIgnore sendMessage
    cases hs : e.sendThrows <;>
      simp [mhas, mdel, alistHas_del_self]
  · intro t ht hne hsend h1 h2
    subst ht
    simp [handleIdentifierInput, handleIdentifierInputBody, hne, h1, h2, sendMessage,
      hsend]

/-- Witness for C10: a throwing saveAddress during registration abandons the flow with
the apology. -/
theorem c10_witness :
    (handleIdentifierInput effSaveFail ⟨[1], [], [], [], []⟩ 1
        (some addrA)).pendingRegistrations.contains 1 = false ∧
    (1, Reply.registrationApology) ∈
      (handleIdentifierInput effSaveFail ⟨[1], [], [], [], []⟩ 1 (some addrA)).sent :=
  (c10_catch_behavior effSaveFail ⟨[1], [], [], [], []⟩ 1 (some addrA)).1
    ⟨[1], [], [], [], []⟩ (by decide)

/-! Command handlers never remove pending entries, for C2. -/

theorem pendingMono_refl (s : BotState) : PendingMono s s :=
  ⟨fun _ h => h, fun _ h => h, fun _ h => h⟩

theorem pendingMono_trans {a b c : BotState} (h1 : PendingMono a b)
    (h2 : PendingMono b c) : PendingMono a c :=
  ⟨fun k h => h2.1 k (h1.1 k h), fun k h => h2.2.1 k (h1.2.1 k h),
   fun k h => h2.2.2 k (h1.2.2 k h)⟩

theorem startHandler_state (e : Eff) (s : BotState) (chat : Int) :
    (startHandler e s chat).pendingChanges = s.pendingChanges ∧
    (startHandler e s chat).pendingDeletions = s.pendingDeletions ∧
    ((startHandler e s chat).pendingRegistrations = s.pendingRegistrations ∨
      (startHandler e s chat).pendingRegistrations =
        regInsert s.pendingRegistrations chat) := by
  unfold startHandler getAddressByChatId
  cases hf : e.findThrows <;>
    cases hfind : s.db.find? (fun p => p.2.chatId == chat) <;>
    cases hs : e.sendThrows <;>
    simp [hf, hfind, hs, sendMessage, sendIgnore]

theorem showHandler_state (e : Eff) (s : BotState) (chat : Int) :
    (showHandler e s chat).pendingChanges = s.pendingChanges ∧
    (showHandler e s chat).pendingDeletions = s.pendingDeletions ∧
    (showHandler e s chat).pendingRegistrations = s.pendingRegistrations := by
  unfold showHandler getAddressByChatId
  cases hf : e.findThrows <;>
    cases hfind : s.db.find? (fun p => p.2.chatId == chat) <;>
    cases hs : e.sendThrows <;>
    simp [hf, hfind, hs, sendMessage, sendIgnore]

theorem helpHandler_state (e : Eff) (s : BotState) (chat : Int) :
    (helpHandler e s chat).pendingChanges = s.pendingChanges ∧
    (helpHandler e s chat).pendingDeletions = s.pendingDeletions ∧
    (helpHandler e s chat).pendingRegistrations = s.pendingRegistrations := by
  unfold helpHandler
  cases hs : e.sendThrows <;> simp [hs, sendMessage, sendIgnore]

theorem changeHandler_state (e : Eff) (s : BotState) (chat : Int) :
    (changeHandler e s chat).pendingRegistrations = s.pendingRegistrations ∧
    (changeHandler e s chat).pendingDeletions = s.pendingDeletions ∧
    ((changeHandler e s chat).pendingChanges = s.pendingChanges ∨
      ∃ v, (changeHandler e s chat).pendingChanges = mset s.pendingChanges chat v) := by
  unfold changeHandler getAddressByChatId
  cases hf : e.findThrows <;>
    cases hfind : s.db.find? (fun p => p.2.chatId == chat) <;>
    cases hs : e.sendThrows <;>
    simp [hf, hfind, hs, sendMessage, sendIgnore] <;>
    exact Or.inr ⟨_, rfl⟩

theorem stopHandler_state (e : Eff) (s : BotState) (chat : Int) :
    (stopHandler e s chat).pendingRegistrations = s.pendingRegistrations ∧
    (stopHandler e s chat).pendingChanges = s.pendingChanges ∧
    ((stopHandler e s chat).pendingDeletions = s.pendingDeletions ∨
      ∃ v, (stopHandler e s chat).pendingDeletions = mset s.pendingDeletions chat v) := by
  unfold stopHandler getAddressByChatId
  cases hf : e.findThrows <;>
    cases hfind : s.db.find? (fun p => p.2.chatId == chat) <;>
    cases hs : e.sendThrows <;>
    simp [hf, hfind, hs, sendMessage, sendIgnore] <;>
    exact Or.inr ⟨_, rfl⟩

theorem messageHandler_slash_state (e : Eff) (s : BotState) (chat : Int) (t : JStr)
    (hslash : startsWithSeq (str ("/")) t = true) :
    (messageHandler e s chat (some t)).pendingRegistrations = s.pendingRegistrations ∧
    (messageHandler e s chat (some t)).pendingChanges = s.pendingChanges ∧
    (messageHandler e s chat (some t)).pendingDeletions = s.pendingDeletions := by
  unfold messageHandler
  simp only [hslash, if_true]
  by_cases hk : startsWithKnownCommand t = true
  · simp [hk]
  · have hk2 : startsWithKnownCommand t = false := by simpa using hk
    cases hs : e.sendThrows <;> simp [hk2, hs, sendMessage, sendIgnore]

theorem startHandler_pendingMono (e : Eff) (s : BotState) (chat : Int) :
    PendingMono s (startHandler e s chat) := by
  obtain ⟨h1, h2, h3⟩ := startHandler_state e s chat
  refine ⟨fun k h => ?_, fun k h => ?_, fun k h => ?_⟩
  · rw [h2]
    exact h
  · rw [h1]
    exact h
  · rcases h3 with h3 | h3
    · rw [h3]
      exact h
    · rw [h3]
      exact contains_regInsert_mono _ _ _ h

theorem showHandler_pendingMono (e : Eff) (s : BotState) (chat : Int) :
    PendingMono s (showHandler e s chat) := by
  obtain ⟨h1, h2, h3⟩ := showHandler_state e s chat
  exact ⟨fun k h => by rw [h2]; exact h, fun k h => by rw [h1]; exact h,
    fun k h => by rw [h3]; exact h⟩

theorem helpHandler_pendingMono (e : Eff) (s : BotState) (chat : Int) :
    PendingMono s (helpHandler e s chat) := by
  obtain ⟨h1, h2, h3⟩ := helpHandler_state e s chat
  exact ⟨fun k h => by rw [h2]; exact h, fun k h => by rw [h1]; exact h,
    fun k h => by rw [h3]; exact h⟩

theorem changeHandler_pendingMono (e : Eff) (s : BotState) (chat : Int) :
    PendingMono s (changeHandler e s chat) := by
  obtain ⟨h1, h2, h3⟩ := changeHandler_state e s chat
  refine ⟨fun k h => ?_, fun k h => ?_, fun k h => ?_⟩
  · rw [h2]
    exact h
  · rcases h3 with h3 | ⟨v, h3⟩
    · rw [h3]
      exact h
    · rw [h3]
      exact alistHas_set_mono _ _ _ _ h
  · rw [h1]
    exact h

theorem stopHandler_pendingMono (e : Eff) (s : BotState) (chat : Int) :
    PendingMono s (stopHandler e s chat) := by
  obtain ⟨h1, h2, h3⟩ := stopHandler_state e s chat
  refine ⟨fun k h => ?_, fun k h => ?_, fun k h => ?_⟩
  · rcases h3 with h3 | ⟨v, h3⟩
    · rw [h3]
      exact h
    · rw [h3]
      exact alistHas_set_mono _ _ _ _ h
  · rw [h2]
    exact h
  · rw [h1]
    exact h

theorem messageHandler_slash_pendingMono (e : Eff) (s : BotState) (chat : Int) (t : JStr)
    (hslash : startsWithSeq (str ("/")) t = true) :
    PendingMono s (messageHandler e s chat (some t)) := by
  obtain ⟨h1, h2, h3⟩ := messageHandler_slash_state e s chat t hslash
  exact ⟨fun k h => by rw [h3]; exact h, fun k h => by rw [h2]; exact h,
    fun k h => by rw [h1]; exact h⟩

theorem ite_handler_pendingMono (c : Prop) [Decidable c] (f : BotState → BotState)
    (s : BotState) (hf : ∀ u, PendingMono u (f u)) :
    PendingMono s (if c then f s else s) := by
  split_ifs with h
  · exact hf s
  · exact pendingMono_refl s

theorem processMessage_slash_pendingMono (e : Eff) (s : BotState) (chat : Int) (t : JStr)
    (hslash : startsWithSeq (str ("/")) t = true) :
    PendingMono s (processMessage e s chat (some t)) := by
  unfold processMessage
  exact pendingMono_trans (messageHandler_slash_pendingMono e s chat t hslash)
    (pendingMono_trans
      (ite_handler_pendingMono _ _ _ (fun u => startHandler_pendingMono e u chat))
      (pendingMono_trans
        (ite_handler_pendingMono _ _ _ (fun u => showHandler_pendingMono e u chat))
        (pendingMono_trans
          (ite_handler_pendingMono _ _ _ (fun u => changeHandler_pendingMono e u chat))
          (pendingMono_trans
            (ite_handler_pendingMono _ _ _ (fun u => stopHandler_pendingMono e u chat))
            (ite_handler_pendingMono _ _ _ (fun u => helpHandler_pendingMono e u chat))))))

/-- C2 counterexample: a registered chat sends /stop and then /change; afterwards both
the deletion flow and the change flow are pending for that chat, so more than one
variant is active at once and the newer command did not overwrite the pending state. -/
theorem c2_counterexample :
    mhas (processMessage eff0 (processMessage eff0 s0 1 (some (str ("/stop")))) 1
        (some (str ("/change")))).pendingDeletions 1 = true ∧
    mhas (processMessage eff0 (processMessage eff0 s0 1 (some (str ("/stop")))) 1
        (some (str ("/change")))).pendingChanges 1 = true := by
  refine ⟨by decide, by decide⟩

/-- C2 amended: a slash-command message never removes any pending entry of any flow for
any chat, so several variants can be pending at once; a freeform message is dispatched
to exactly one flow by the fixed priority deletion, then change, then registration. -/
theorem c2_amended (e : Eff) (s : BotState) (chat : Int) (t : JStr)
    (hslash : t.head? = some 47) :
    ((∀ k, mhas s.pendingDeletions k = true →
        mhas (processMessage e s chat (some t)).pendingDeletions k = true) ∧
     (∀ k, mhas s.pendingChanges k = true →
        mhas (processMessage e s chat (some t)).pendingChanges k = true) ∧
     (∀ k, s.pendingRegistrations.contains k = true →
        (processMessage e s chat (some t)).pendingRegistrations.contains k = true)) ∧
    (∀ u : JStr, startsWithSeq (str ("/")) u = false →
      matchesCmd (str ("/start")) (some u) = false →
      matchesCmd (str ("/show")) (some u) = false →
      matchesCmd (str ("/change")) (some u) = false →
      matchesCmd (str ("/stop")) (some u) = false →
      matchesCmd (str ("/help")) (some u) = false →
      ((mhas s.pendingDeletions chat = true →
         processMessage e s chat (some u) =
           handleDeletionConfirmation e s chat (some u)) ∧
       (mhas s.pendingDeletions chat = false → mhas s.pendingChanges chat = true →
         processMessage e s chat (some u) = handleAddressChange e s chat (some u)) ∧
       (mhas s.pendingDeletions chat = false → mhas s.pendingChanges chat = false →
         s.pendingRegistrations.contains chat = true →
         processMessage e s chat (some u) = handleIdentifierInput e s chat (some u)))) := by
  constructor
  · have hsw : startsWithSeq (str ("/")) t = true := by
      cases t with
      | nil => simp at hslash
      | cons c cs =>
        have hc : c = 47 := by simpa using hslash
        subst hc
        rw [show str ("/") = [47] from by decide]
        simp [startsWithSeq]
    exact processMessage_slash_pendingMono e s chat t hsw
  · intro u hns hc1 hc2 hc3 hc4 hc5
    have hm : processMessage e s chat (some u) = messageHandler e s chat (some u) := by
      unfold processMessage
      simp only [hc1, hc2, hc3, hc4, hc5, Bool.false_eq_true, if_false]
    rw [hm]
    unfold messageHandler
    simp only [hns, Bool.false_eq_true, if_false]
    refine ⟨fun hd => by simp [hd], fun hd hc => by simp [hd, hc],
      fun hd hc hr => by
        have hrm : chat ∈ s.pendingRegistrations := List.mem_of_elem_eq_true hr
        simp [hd, hc, hrm]⟩

/-- Witness for C2 amended: a pending deletion survives a later /help command. -/
theorem c2_witness :
    mhas (processMessage eff0 { s0 with pendingDeletions := [(1, ⟨addrA, none⟩)] } 1
        (some (str ("/help")))).pendingDeletions 1 = true :=
  ((c2_amended eff0 { s0 with pendingDeletions := [(1, ⟨addrA, none⟩)] } 1
    (str ("/help")) (by decide)).1).1 1 (by decide)

end BG
